import Mathlib

/-
Verification of the MediaConverterProject conversion engine.

The Python source is shallowly embedded: pure helpers become Lean
functions, and every call to an external program (ffmpeg or ffprobe)
or to the filesystem is modelled through an explicit environment value
that records a queue of pending tool results and a trace of observable
events.  Machine-level details (real processes, real clocks) are out of
scope; the logic of the source functions is translated line by line.
-/

namespace MediaConv

/-! ## Python string primitives used by the source -/

/-- The whitespace set of Python `str.split` / `str.strip`
(space, tab, newline, carriage return, vertical tab, form feed). -/
def isPyWs (c : Char) : Bool :=
  c = ' ' || c = '\t' || c = '\n' || c = '\r' || c = '\x0b' || c = '\x0c'

/-- Python `str.strip()`: drop leading and trailing whitespace. -/
def pyStrip (s : String) : String :=
  ⟨((s.data.dropWhile isPyWs).reverse.dropWhile isPyWs).reverse⟩

/-- Worker for Python `str.split()` with no separator: accumulate the
current word (reversed) and cut at whitespace runs, discarding empties. -/
def wordsAux : List Char → List Char → List (List Char)
  | [], cur => if cur = [] then [] else [cur.reverse]
  | c :: rest, cur =>
    if isPyWs c then
      if cur = [] then wordsAux rest [] else cur.reverse :: wordsAux rest []
    else
      wordsAux rest (c :: cur)

/-- Join words with single spaces, as `" ".join(words)` does. -/
def joinWords : List (List Char) → List Char
  | [] => []
  | [w] => w
  | w :: ws => w ++ ' ' :: joinWords ws

/-- Python `" ".join(s.split())`: collapse whitespace runs to single
spaces and trim the ends. -/
def pyJoinSplit (s : String) : String :=
  ⟨joinWords (wordsAux s.data [])⟩

/-- Worker for Python `str.replace(old, "")` with a nonempty `old`
(head `p`, tail `ps`): scan left to right, dropping every nonoverlapping
occurrence.  The fuel starts at the length of the scanned list, which
bounds the number of steps, so the `fuel = 0` branch is unreachable. -/
def replaceGo (p : Char) (ps : List Char) : Nat → List Char → List Char
  | _, [] => []
  | 0, s => s
  | fuel + 1, c :: rest =>
    if (p :: ps).isPrefixOf (c :: rest) then
      replaceGo p ps fuel (rest.drop ps.length)
    else
      c :: replaceGo p ps fuel rest

/-- Python `s.replace(pat, "")`.  An empty pattern leaves the string
unchanged, exactly as `str.replace("", "")` does with an empty
replacement. -/
def pyReplace (s pat : String) : String :=
  match pat.data with
  | [] => s
  | p :: ps => ⟨replaceGo p ps s.data.length s.data⟩

/-- Digits-only numeral value; `none` when empty or a non-digit occurs. -/
def digitsVal (cs : List Char) : Option Nat :=
  if cs = [] then none
  else if cs.all Char.isDigit then
    some (cs.foldl (fun a c => a * 10 + (c.toNat - 48)) 0)
  else none

/-- Python `int(s)` on probe output: strip whitespace, optional sign,
then decimal digits; anything else raises, modelled as `none`. -/
def pyInt (s : String) : Option Int :=
  match (pyStrip s).data with
  | '+' :: rest => (digitsVal rest).map Int.ofNat
  | '-' :: rest => (digitsVal rest).map (fun n => -(Int.ofNat n))
  | rest => (digitsVal rest).map Int.ofNat

/-- Characters accepted as line breaks by `str.splitlines` that can
occur in tool output; the source always strips before splitting, so
the first line is the text before the first break. -/
def isLineBreak (c : Char) : Bool :=
  c = '\n' || c = '\r'

/-- Python `s.splitlines()[0]` for a pre-stripped nonempty string. -/
def firstLine (s : String) : String :=
  ⟨s.data.takeWhile (fun c => !isLineBreak c)⟩

/-- Python truthiness of a string: nonempty. -/
def pyTruthy (s : String) : Bool :=
  decide (s ≠ "")

/-! ## Paths

A filesystem path is a directory (list of components), a stem, and an
extension carrying its leading dot, mirroring `pathlib.Path` fields
`parent`, `stem` and `suffix` as used by the source. -/

structure Path where
  dir : List String
  stem : String
  ext : String
deriving DecidableEq, Repr

/-- Python `str(path)`: the components joined by the separator. -/
def pathStr (p : Path) : String :=
  String.intercalate ("/") (p.dir ++ [p.stem ++ p.ext])

/-- Python `str.lower()` restricted to ASCII, as applied to suffixes. -/
def extLower (s : String) : String :=
  ⟨s.data.map Char.toLower⟩

/-! ## Configuration (config.py) and GUI settings (convert.py) -/

/-- The configuration surface of `config.py` that the converters read.
`max_retries` counts additional attempts after the first failure. -/
structure Config where
  ffmpeg_binary : String
  ffprobe_binary : String
  copy_mode : List String
  encode_video : List String
  encode_audio : List String
  encode_video_4k : List String
  encode_audio_4k : List String
  same_dir_output : Bool
  output_dir : List String
  rename_patterns : List String
  high_quality_4k : Bool
  max_retries : Nat
  validate_audio : Bool
  burn_in_subtitles : Bool
  keep_subtitles : Bool
  delete_original_after_convert : Bool
  failed_dir : List String
  video_extensions : List String
  overwrite_existing : Bool

/-- The checkbox state of `SimpleConverterApp` in convert.py. -/
structure AppSettings where
  same_dir : Bool
  delete_original : Bool
  high_4k : Bool
  skip_audio : Bool
  scan_dir : List String
  dest_dir : List String

/-! ## External world

Every external invocation (`safe_run`) pops the next queued result;
every observable side effect is appended to the trace.  `resolve`
models `Path.resolve()` canonicalization, `fsExists` models
`Path.exists()`, and `moveOk` / `unlinkOk` say whether the
`shutil.move` and `unlink` try-blocks succeed. -/

/-- Result of one external invocation: (returncode == 0, stdout, stderr). -/
abbrev RunResult := Bool × String × String

/-- Observable side effects of the engine. -/
inductive Event where
  | run (cmd : List String)
  | unlink (p : Path)
  | move (src dst : Path)
  | mkdir (d : List String)
deriving DecidableEq, Repr

structure Env where
  responses : List RunResult
  resolve : Path → Path
  fsExists : Path → Bool
  moveOk : Bool
  unlinkOk : Bool
  trace : List Event

/-- utils.safe_run: run a command, logging it in the trace; an empty
queue models a tool that cannot be launched, which the source reports
as `(False, "", str(e))`. -/
def safe_run (cmd : List String) (e : Env) : RunResult × Env :=
  match e.responses with
  | [] => ((false, "", ""), { e with trace := e.trace ++ [Event.run cmd] })
  | r :: rest => (r, { e with responses := rest, trace := e.trace ++ [Event.run cmd] })

/-! ## renamer.py -/

/-- Apply the configured removal patterns in order, as the loop of
`clean_name` does with `str.replace`. -/
def applyPatterns (patterns : List String) (s : String) : String :=
  patterns.foldl (fun acc pat => pyReplace acc pat) s

/-- renamer.clean_name: strip every configured pattern from the stem,
collapse whitespace, and fall back to the original stem when the
result is empty. -/
def clean_name (cfg : Config) (p : Path) (extra : List String) : String :=
  let stem := p.stem
  let patterns := cfg.rename_patterns ++ extra
  let cleaned := applyPatterns patterns stem
  let collapsed := pyJoinSplit cleaned
  if collapsed = "" then stem else collapsed

/-! ## converters.py -/

/-- converters.build_copy_command: the lossless container rewrap call. -/
def build_copy_command (cfg : Config) (input_path output_path : Path) : List String :=
  cfg.ffmpeg_binary :: "-i" :: pathStr input_path ::
    (cfg.copy_mode ++ [pathStr output_path])

/-- The candidate output path computed by `sanitize_output_name` before
the collision check: base directory, cleaned stem, fixed `.mp4`. -/
def sanitizeCandidate (cfg : Config) (input_path : Path) : Path :=
  let base_dir := if cfg.same_dir_output then input_path.dir else cfg.output_dir
  { dir := base_dir, stem := clean_name cfg input_path [], ext := ".mp4" }

/-- converters.sanitize_output_name: decide the output path, appending
`_converted` to the stem when the candidate resolves to the source.
`resolve` is the canonicalization of the ambient filesystem. -/
def sanitize_output_name (cfg : Config) (resolve : Path → Path)
    (input_path : Path) : Path :=
  let candidate := sanitizeCandidate cfg input_path
  if resolve candidate = resolve input_path then
    { candidate with stem := candidate.stem ++ "_converted" }
  else candidate

/-- The ffprobe invocation built by `is_4k_video`. -/
def heightProbeCmd (bin : String) (p : Path) : List String :=
  [bin, "-v", "error", "-select_streams", "v:0",
   "-show_entries", "stream=height", "-of", "csv=p=0", pathStr p]

/-- converters.is_4k_video: false unless `HIGH_QUALITY_FOR_4K` is set;
otherwise probe the first video stream height and compare with 2160,
treating failure, empty output or an unparseable height as not 4K. -/
def is_4k_video (cfg : Config) (input_path : Path) (e : Env) : Bool × Env :=
  if cfg.high_quality_4k = false then (false, e)
  else
    let c := safe_run (heightProbeCmd cfg.ffprobe_binary input_path) e
    if c.1.1 = false ∨ pyStrip c.1.2.1 = "" then (false, c.2)
    else
      match pyInt (firstLine (pyStrip c.1.2.1)) with
      | none => (false, c.2)
      | some height => (decide (height ≥ 2160), c.2)

/-- The ffprobe invocation built by `has_audio_stream` / `has_audio`. -/
def audioProbeCmd (bin : String) (p : Path) : List String :=
  [bin, "-v", "error", "-select_streams", "a",
   "-show_entries", "stream=index",
   "-of", "default=nokey=1:noprint_wrappers=1", pathStr p]

/-- converters.has_audio_stream: true iff the probe succeeds and its
stripped stdout is nonempty (at least one audio stream index listed). -/
def has_audio_stream (cfg : Config) (p : Path) (e : Env) : Bool × Env :=
  let c := safe_run (audioProbeCmd cfg.ffprobe_binary p) e
  if c.1.1 = false then (false, c.2)
  else (pyTruthy (pyStrip c.1.2.1), c.2)

/-- converters.build_encode_command: select standard or 4K parameter
sets by consulting `is_4k_video` (an external probe), add the subtitle
flags, and assemble the ffmpeg argument list. -/
def build_encode_command (cfg : Config) (input_path output_path : Path)
    (e : Env) : List String × Env :=
  let k := is_4k_video cfg input_path e
  let encode_video := if k.1 then cfg.encode_video_4k else cfg.encode_video
  let encode_audio := if k.1 then cfg.encode_audio_4k else cfg.encode_audio
  let extra_args :=
    if cfg.burn_in_subtitles then ["-vf", "subtitles=" ++ pathStr input_path]
    else if cfg.keep_subtitles then ["-c:s", "mov_text", "-map", "0"]
    else []
  (cfg.ffmpeg_binary :: "-i" :: pathStr input_path ::
     (encode_video ++ encode_audio ++ extra_args ++ [pathStr output_path]), k.2)

/-- The command half of one iteration of the retry loop of
`convert_video`: stream copy first; on failure build and run the
encode command. -/
def cyclePhase (cfg : Config) (input_path output_path : Path) (e : Env) :
    Bool × Env :=
  let c1 := safe_run (build_copy_command cfg input_path output_path) e
  if c1.1.1 then (true, c1.2)
  else
    let b := build_encode_command cfg input_path output_path c1.2
    let c2 := safe_run b.1 b.2
    (c2.1.1, c2.2)

/-- One full iteration of the retry loop of `convert_video`: the
command phase, then, when the chosen command succeeded and audio
validation is on, an audio probe of the output file. -/
def cycleStep (cfg : Config) (input_path output_path : Path) (e : Env) :
    Bool × Env :=
  let step := cyclePhase cfg input_path output_path e
  if step.1 && cfg.validate_audio then
    has_audio_stream cfg output_path step.2
  else step

/-- The `while attempts <= max_retries and not success` loop of
`convert_video`; the fuel is `max_retries + 1 - attempts`, the number
of iterations the guard still allows.  Returns the final `success`
flag, the final value of the `attempts` counter, and the environment. -/
def convertLoop (cfg : Config) (input_path output_path : Path) :
    Nat → Nat → Env → Bool × Nat × Env
  | 0, attempts, e => (false, attempts, e)
  | fuel + 1, attempts, e =>
    let c := cycleStep cfg input_path output_path e
    if c.1 then (true, attempts + 1, c.2)
    else convertLoop cfg input_path output_path fuel (attempts + 1) c.2

/-- converters.convert_video: resolve output name, create its parent
directory, run the retry loop, and on exhaustion move the source into
the failed directory (`moveOk` says whether that try-block succeeds);
on success optionally delete the original. -/
def convert_video (cfg : Config) (input_path : Path) (e : Env) : Bool × Env :=
  let output_path := sanitize_output_name cfg e.resolve input_path
  let e0 := { e with trace := e.trace ++ [Event.mkdir output_path.dir] }
  let res := convertLoop cfg input_path output_path (cfg.max_retries + 1) 0 e0
  let success := res.1
  let e1 := res.2.2
  if success = false then
    let target : Path :=
      { dir := cfg.failed_dir, stem := input_path.stem, ext := input_path.ext }
    if e1.moveOk then
      (false, { e1 with trace :=
        e1.trace ++ [Event.mkdir cfg.failed_dir, Event.move input_path target] })
    else (false, e1)
  else
    if cfg.delete_original_after_convert then
      if e1.unlinkOk then
        (true, { e1 with trace := e1.trace ++ [Event.unlink input_path] })
      else (true, e1)
    else (true, e1)

/-! ## scanner.py -/

/-- scanner.needs_conversion: reject unsupported extensions; when
overwriting is disabled and the resolved output already exists, skip. -/
def needs_conversion (cfg : Config) (e : Env) (p : Path) : Bool :=
  let suffix := extLower p.ext
  if ¬ (suffix ∈ cfg.video_extensions) then false
  else
    let output_path := sanitize_output_name cfg e.resolve p
    if cfg.overwrite_existing = false && e.fsExists output_path then false
    else true

/-! ## reporting.py -/

/-- reporting.Report: the session accumulator.  The wall-clock
timestamp fields of the source are not represented. -/
structure Report where
  total_files : Nat
  converted : Nat
  skipped : Nat
  failed : Nat
  failed_files : List String
  audio_failures : Nat
  audio_failed_files : List String
  retry_failures : Nat
deriving DecidableEq, Repr

/-- The fresh report built by `Report.__init__`. -/
def emptyReport : Report :=
  { total_files := 0, converted := 0, skipped := 0, failed := 0,
    failed_files := [], audio_failures := 0, audio_failed_files := [],
    retry_failures := 0 }

/-- Report.add_failure (the optional reason argument is recorded
nowhere in the source, so it is omitted). -/
def add_failure (r : Report) (p : String) : Report :=
  { r with failed := r.failed + 1, failed_files := r.failed_files ++ [p] }

/-- Report.add_audio_failure: bump the audio counters, and count the
path as a general failure only when it is not already listed. -/
def add_audio_failure (r : Report) (p : String) : Report :=
  let r1 := { r with audio_failures := r.audio_failures + 1,
                     audio_failed_files := r.audio_failed_files ++ [p] }
  if p ∈ r.failed_files then r1
  else { r1 with failed := r1.failed + 1, failed_files := r1.failed_files ++ [p] }

/-- A call against a `Report` in the two methods claim C10 ranges over. -/
inductive ROp where
  | fail (p : String)
  | audioFail (p : String)
deriving DecidableEq, Repr

/-- Run a sequence of report method calls left to right. -/
def applyOps (r : Report) : List ROp → Report
  | [] => r
  | ROp.fail p :: rest => applyOps (add_failure r p) rest
  | ROp.audioFail p :: rest => applyOps (add_audio_failure r p) rest

/-! ## main.py -/

/-- The per-file loop of main.run: skip files that need no conversion,
otherwise convert and record the outcome, then continue with the rest. -/
def runBatch (cfg : Config) : List Path → Env → Report → Report × Env
  | [], e, r => (r, e)
  | p :: rest, e, r =>
    if needs_conversion cfg e p then
      let res := convert_video cfg p e
      let r1 := if res.1 then { r with converted := r.converted + 1 }
                else add_failure r (pathStr p)
      runBatch cfg rest res.2 r1
    else
      runBatch cfg rest e { r with skipped := r.skipped + 1 }

/-! ## convert.py (SimpleConverterApp) -/

/-- The candidate output path of `get_output_path` before the collision
check: next to the source, or mirroring the scan tree under the
destination (`relative_to` assumes the source lies under `scan_dir`). -/
def getOutputCandidate (st : AppSettings) (input_path : Path) : Path :=
  let base_dir :=
    if st.same_dir then input_path.dir
    else st.dest_dir ++ input_path.dir.drop st.scan_dir.length
  { dir := base_dir, stem := input_path.stem, ext := ".mp4" }

/-- SimpleConverterApp.get_output_path: create the base directory and
apply the same `_converted` collision fix as the converters module. -/
def get_output_path (st : AppSettings) (e : Env) (input_path : Path) :
    Path × Env :=
  let candidate := getOutputCandidate st input_path
  let e1 := { e with trace := e.trace ++ [Event.mkdir candidate.dir] }
  if e.resolve candidate = e.resolve input_path then
    ({ candidate with stem := candidate.stem ++ "_converted" }, e1)
  else (candidate, e1)

/-- SimpleConverterApp.has_audio: bypassed entirely when the
skip-audio-validation setting is on, otherwise the same probe as
`has_audio_stream` with the hardcoded ffprobe binary. -/
def hasAudio (st : AppSettings) (p : Path) (e : Env) : Bool × Env :=
  if st.skip_audio then (true, e)
  else
    let c := safe_run (audioProbeCmd ("ffprobe") p) e
    (c.1.1 && pyTruthy (pyStrip c.1.2.1), c.2)

/-- SimpleConverterApp.is_4k: gated on the high-4K checkbox, then the
same height probe and parse as `is_4k_video`. -/
def is4kApp (st : AppSettings) (p : Path) (e : Env) : Bool × Env :=
  if st.high_4k = false then (false, e)
  else
    let c := safe_run (heightProbeCmd ("ffprobe") p) e
    if c.1.1 = false ∨ pyStrip c.1.2.1 = "" then (false, c.2)
    else
      match pyInt (firstLine (pyStrip c.1.2.1)) with
      | none => (false, c.2)
      | some height => (decide (height ≥ 2160), c.2)

/-- The hardcoded stream-copy command of `convert_file`. -/
def appCopyCmd (input_path output_path : Path) : List String :=
  ["ffmpeg", "-i", pathStr input_path, "-c", "copy", "-map", "0",
   "-c:s", "mov_text", pathStr output_path]

/-- The hardcoded encode command of `convert_file`, with the 4K or
standard parameter set. -/
def appEncodeCmd (is4k : Bool) (input_path output_path : Path) : List String :=
  let video_args :=
    if is4k then ["-c:v", "libx264", "-preset", "slow", "-crf", "18"]
    else ["-c:v", "libx264", "-preset", "slow", "-crf", "20"]
  let audio_args :=
    if is4k then ["-c:a", "aac", "-b:a", "320k"]
    else ["-c:a", "aac", "-b:a", "192k"]
  "ffmpeg" :: "-i" :: pathStr input_path ::
    (video_args ++ audio_args ++ ["-map", "0:v", "-map", "0:a?", pathStr output_path])

/-- SimpleConverterApp.convert_file: try the copy command with an audio
check; on failure re-encode and check audio again; when both fail,
remove the leftover output file if it exists and report failure.  The
stderr inspection of the source only chooses a log message and is not
control flow, so it is not represented. -/
def convert_file (st : AppSettings) (input_path output_path : Path) (e : Env) :
    (Bool × String) × Env :=
  let c1 := safe_run (appCopyCmd input_path output_path) e
  let a1 := if c1.1.1 then hasAudio st output_path c1.2 else (false, c1.2)
  if c1.1.1 && a1.1 then ((true, "copy"), a1.2)
  else
    let k := is4kApp st input_path a1.2
    let c2 := safe_run (appEncodeCmd k.1 input_path output_path) k.2
    let a2 := if c2.1.1 then hasAudio st output_path c2.2 else (false, c2.2)
    if c2.1.1 && a2.1 then ((true, "encode"), a2.2)
    else
      let e6 :=
        if a2.2.fsExists output_path then
          { a2.2 with trace := a2.2.trace ++ [Event.unlink output_path] }
        else a2.2
      ((false, "failed"), e6)

/-! ## Concrete fixtures used by witnesses and counterexamples -/

/-- The default configuration values of config.py. -/
def cfgFix : Config :=
  { ffmpeg_binary := "ffmpeg", ffprobe_binary := "ffprobe",
    copy_mode := ["-c", "copy", "-map", "0"],
    encode_video := ["-c:v", "libx264", "-preset", "slow", "-crf", "18"],
    encode_audio := ["-c:a", "aac"],
    encode_video_4k := ["-c:v", "libx264", "-preset", "slow", "-crf", "16"],
    encode_audio_4k := ["-c:a", "aac", "-b:a", "640k"],
    same_dir_output := false, output_dir := ["output"],
    rename_patterns := ["1080p", "x265"],
    high_quality_4k := false, max_retries := 1, validate_audio := true,
    burn_in_subtitles := false, keep_subtitles := false,
    delete_original_after_convert := false, failed_dir := ["temp", "failed"],
    video_extensions := [".m4v", ".mp4", ".mov", ".mkv"],
    overwrite_existing := false }

/-- Same-directory output with no rename patterns, the mode in which
the output candidate can textually equal the source. -/
def cfgSame : Config :=
  { cfgFix with same_dir_output := true, rename_patterns := [] }

/-- Configuration with the high-quality-4K setting enabled. -/
def cfg4k : Config :=
  { cfgFix with high_quality_4k := true }

/-- GUI settings with every checkbox in its default (off) state except
same-directory output. -/
def stFix : AppSettings :=
  { same_dir := true, delete_original := false, high_4k := false,
    skip_audio := false, scan_dir := [], dest_dir := [] }

def pSame : Path := { dir := ["d"], stem := "Movie", ext := ".mp4" }

def pIn : Path := { dir := ["input"], stem := "clip", ext := ".mkv" }

def pOut : Path := { dir := ["output"], stem := "clip", ext := ".mp4" }

def pFix : Path := { dir := [], stem := "Movie.1080p.x265", ext := ".mkv" }

/-- An environment with identity canonicalization, no existing files,
and a given queue of tool results. -/
def envQ (rs : List RunResult) : Env :=
  { responses := rs, resolve := id, fsExists := fun _ => false,
    moveOk := true, unlinkOk := true, trace := [] }

/-- An environment in which every path exists on disk. -/
def envQx (rs : List RunResult) : Env :=
  { responses := rs, resolve := id, fsExists := fun _ => true,
    moveOk := true, unlinkOk := true, trace := [] }

/-! ## General helper lemmas -/

theorem append_converted_ne (s : String) : s ++ "_converted" ≠ s := by
  intro h
  have h10 : ("_converted" : String).data.length = 10 := rfl
  have hl := congrArg (fun t => t.data.length) h
  simp only [String.data_append, List.length_append, h10] at hl
  omega

/-- Two adjacent spaces somewhere in the character list. -/
def hasDoubleSpace : List Char → Bool
  | a :: b :: t => ((a == ' ') && (b == ' ')) || hasDoubleSpace (b :: t)
  | _ => false

theorem noDoubleSpace_append (w rest : List Char)
    (hw : ∀ c ∈ w, c ≠ ' ') (hr : hasDoubleSpace rest = false) :
    hasDoubleSpace (w ++ rest) = false := by
  induction w with
  | nil => simpa using hr
  | cons c w' ih =>
    have hc : c ≠ ' ' := hw c (by simp)
    have ih' : hasDoubleSpace (w' ++ rest) = false :=
      ih (fun x hx => hw x (by simp [hx]))
    cases hwr : w' ++ rest with
    | nil => rw [List.cons_append, hwr]; rfl
    | cons d t =>
      rw [List.cons_append, hwr]
      rw [hwr] at ih'
      simp [hasDoubleSpace, ih', hc]

theorem joinWords_noDoubleSpace (ws : List (List Char))
    (h : ∀ w ∈ ws, w ≠ [] ∧ ∀ c ∈ w, c ≠ ' ') :
    hasDoubleSpace (joinWords ws) = false := by
  induction ws with
  | nil => rfl
  | cons w ws' ih =>
    cases ws' with
    | nil =>
      have hw := h w (by simp)
      simpa [joinWords] using noDoubleSpace_append w [] hw.2 rfl
    | cons w2 ws'' =>
      have hw := h w (by simp)
      have hw2 := h w2 (by simp)
      have htail : hasDoubleSpace (joinWords (w2 :: ws'')) = false :=
        ih (fun x hx => h x (List.mem_cons_of_mem _ hx))
      show hasDoubleSpace (w ++ ' ' :: joinWords (w2 :: ws'')) = false
      refine noDoubleSpace_append w _ hw.2 ?_
      obtain ⟨d, t, hw2c⟩ : ∃ d t, w2 = d :: t := by
        cases w2 with
        | nil => exact absurd rfl hw2.1
        | cons d t => exact ⟨d, t, rfl⟩
      have hd : d ≠ ' ' := hw2.2 d (by simp [hw2c])
      obtain ⟨r0, hr0⟩ : ∃ r0, joinWords (w2 :: ws'') = d :: r0 := by
        cases ws'' with
        | nil => exact ⟨t, by simp [joinWords, hw2c]⟩
        | cons a b =>
          exact ⟨t ++ ' ' :: joinWords (a :: b), by simp [joinWords, hw2c]⟩
      rw [hr0] at htail ⊢
      simp [hasDoubleSpace, htail, hd]

theorem wordsAux_sound (cs : List Char) :
    ∀ cur, (∀ c ∈ cur, isPyWs c = false) →
      ∀ w ∈ wordsAux cs cur, w ≠ [] ∧ ∀ c ∈ w, isPyWs c = false := by
  induction cs with
  | nil =>
    intro cur hcur w hw
    by_cases hc : cur = []
    · simp [wordsAux, hc] at hw
    · simp [wordsAux, hc] at hw
      subst hw
      exact ⟨by simpa using hc, fun c hcmem => hcur c (by simpa using hcmem)⟩
  | cons c rest ih =>
    intro cur hcur w hw
    by_cases hws : isPyWs c
    · by_cases hc : cur = []
      · rw [wordsAux, if_pos hws, if_pos hc] at hw
        exact ih [] (by simp) w hw
      · rw [wordsAux, if_pos hws, if_neg hc] at hw
        rcases List.mem_cons.mp hw with hw1 | hw2
        · subst hw1
          exact ⟨by simpa using hc,
            fun x hx => hcur x (by simpa using hx)⟩
        · exact ih [] (by simp) w hw2
    · rw [wordsAux, if_neg hws] at hw
      refine ih (c :: cur) ?_ w hw
      intro x hx
      rcases List.mem_cons.mp hx with hx1 | hx2
      · subst hx1; simpa using hws
      · exact hcur x hx2

theorem pyJoinSplit_noDoubleSpace (s : String) :
    hasDoubleSpace (pyJoinSplit s).data = false := by
  unfold pyJoinSplit
  refine joinWords_noDoubleSpace _ ?_
  intro w hw
  have := wordsAux_sound s.data [] (by simp) w hw
  refine ⟨this.1, fun c hc => ?_⟩
  have hn := this.2 c hc
  intro he
  rw [he] at hn
  simp [isPyWs] at hn

/-! ## C1 -/

/-- Same-directory output where the rename patterns strip the
`_converted` tag, so the collision fix-up can recreate the source
name. -/
def cfgAlias : Config :=
  { cfgSame with rename_patterns := ["_converted"] }

/-- A source file whose stem already carries the `_converted` tag. -/
def pAlias : Path := { dir := ["d"], stem := "Movie_converted", ext := ".mp4" }

/-- A canonicalization with one symlink: `d/Movie.mp4` denotes the
file `d/Movie_converted.mp4`. -/
def resolveAlias : Path → Path := fun q =>
  if q = { dir := ["d"], stem := "Movie", ext := ".mp4" } then
    { dir := ["d"], stem := "Movie_converted", ext := ".mp4" }
  else q

/-- A canonicalization with one symlink the other way round:
`d/Movie_converted.mp4` denotes the file `d/Movie.mp4`. -/
def resolveAlias2 : Path → Path := fun q =>
  if q = { dir := ["d"], stem := "Movie_converted", ext := ".mp4" } then
    { dir := ["d"], stem := "Movie", ext := ".mp4" }
  else q

/-- An environment whose filesystem contains the
`Movie_converted -> Movie` symlink of `resolveAlias2`. -/
def envAlias : Env :=
  { responses := [], resolve := resolveAlias2, fsExists := fun _ => false,
    moveOk := true, unlinkOk := true, trace := [] }

/-- Claim C1 counterexample: the resolvers check the collision once and
never re-check after appending `_converted`, so under symlink aliasing
they can return a path that canonically equals the source.  With the
`_converted` rename pattern and a `Movie.mp4 -> Movie_converted.mp4`
symlink, `sanitize_output_name` returns the source path itself; and
with a `Movie_converted.mp4 -> Movie.mp4` symlink, `get_output_path`
returns a path that canonicalizes to the source. -/
theorem C1_output_path_collision_counterexample :
    sanitize_output_name cfgAlias resolveAlias pAlias = pAlias
    ∧ resolveAlias (sanitize_output_name cfgAlias resolveAlias pAlias)
        = resolveAlias pAlias
    ∧ envAlias.resolve (get_output_path stFix envAlias pSame).1
        = envAlias.resolve pSame := by
  exact ⟨by decide, by decide, by decide⟩

/-- Claim C1 (amended): on collision of the initial candidate the
resolver appends `_converted` to the stem, and under an alias-free
canonicalization (injective `resolve`, i.e. no two distinct textual
paths denote the same file) the returned path always differs
canonically from the source.  This holds for both
`sanitize_output_name` (converters.py) and `get_output_path`
(convert.py); with aliasing the appended path is not re-checked and
the invariant can fail (see the counterexample). -/
theorem C1_output_path_collision_free (cfg : Config) (st : AppSettings)
    (resolve : Path → Path) (e : Env) (p : Path)
    (hinj : Function.Injective resolve)
    (hinj2 : Function.Injective e.resolve) :
    resolve (sanitize_output_name cfg resolve p) ≠ resolve p
    ∧ (resolve (sanitizeCandidate cfg p) = resolve p →
        sanitize_output_name cfg resolve p
          = { sanitizeCandidate cfg p with
              stem := (sanitizeCandidate cfg p).stem ++ "_converted" })
    ∧ e.resolve (get_output_path st e p).1 ≠ e.resolve p := by
  refine ⟨?_, ?_, ?_⟩
  · unfold sanitize_output_name
    by_cases h : resolve (sanitizeCandidate cfg p) = resolve p
    · rw [if_pos h]
      intro heq
      have h1 := hinj heq
      have h2 := hinj h
      have h3 := congrArg Path.stem (h1.trans h2.symm)
      simp only at h3
      exact append_converted_ne _ h3
    · rw [if_neg h]
      exact h
  · intro h
    unfold sanitize_output_name
    rw [if_pos h]
  · unfold get_output_path
    by_cases h : e.resolve (getOutputCandidate st p) = e.resolve p
    · rw [if_pos h]
      intro heq
      have h1 := hinj2 heq
      have h2 := hinj2 h
      have h3 := congrArg Path.stem (h1.trans h2.symm)
      simp only at h3
      exact append_converted_ne _ h3
    · rw [if_neg h]
      exact h

/-- C1 witness: with identity canonicalization, a same-directory
source `d/Movie.mp4` collides with its candidate output and the
resolver returns the distinct `d/Movie_converted.mp4`. -/
theorem C1_output_path_collision_free_witness :
    id (sanitize_output_name cfgSame id pSame) ≠ id pSame
    ∧ (id (sanitizeCandidate cfgSame pSame) = id pSame →
        sanitize_output_name cfgSame id pSame
          = { sanitizeCandidate cfgSame pSame with
              stem := (sanitizeCandidate cfgSame pSame).stem ++ "_converted" })
    ∧ (envQ []).resolve (get_output_path stFix (envQ []) pSame).1
        ≠ (envQ []).resolve pSame :=
  C1_output_path_collision_free cfgSame stFix id (envQ []) pSame
    (fun _ _ h => h) (fun _ _ h => h)

/-! ## C5 -/

/-- C5 counterexample: with patterns `["1080p", "x265"]` and stem
`"Movie.1080p.x265"`, the cleaned stem is `"Movie.."` (both separating
dots remain), not `"Movie."` as the claim states. -/
theorem C5_clean_name_counterexample :
    clean_name cfgFix pFix [] = "Movie.."
    ∧ clean_name cfgFix pFix [] ≠ "Movie." := by
  exact ⟨by decide, by decide⟩

/-- C5 (amended): `clean_name` removes the configured pattern
substrings in list order, collapses whitespace runs to single spaces
(so the result never contains two adjacent spaces), and falls back to
the original stem exactly when the collapsed result is empty; on the
cited example the cleaned stem is `"Movie.."`. -/
theorem C5_clean_name_amended (cfg : Config) (p : Path) (extra : List String) :
    (pyJoinSplit (applyPatterns (cfg.rename_patterns ++ extra) p.stem) ≠ "" →
      clean_name cfg p extra
        = pyJoinSplit (applyPatterns (cfg.rename_patterns ++ extra) p.stem)
      ∧ hasDoubleSpace (clean_name cfg p extra).data = false)
    ∧ (pyJoinSplit (applyPatterns (cfg.rename_patterns ++ extra) p.stem) = "" →
      clean_name cfg p extra = p.stem)
    ∧ clean_name cfgFix pFix [] = "Movie.." := by
  refine ⟨?_, ?_, by decide⟩
  · intro h
    unfold clean_name
    rw [if_neg h]
    exact ⟨rfl, pyJoinSplit_noDoubleSpace _⟩
  · intro h
    unfold clean_name
    rw [if_pos h]

/-- C5 witness: the amended theorem evaluated on the cited example. -/
theorem C5_clean_name_amended_witness :
    clean_name cfgFix pFix []
      = pyJoinSplit (applyPatterns (cfgFix.rename_patterns ++ []) pFix.stem)
    ∧ hasDoubleSpace (clean_name cfgFix pFix []).data = false :=
  (C5_clean_name_amended cfgFix pFix []).1 (by decide)

/-! ## C10 -/

theorem applyOps_failed_length (ops : List ROp) :
    ∀ r : Report, r.failed = r.failed_files.length →
      (applyOps r ops).failed = (applyOps r ops).failed_files.length := by
  induction ops with
  | nil => intro r h; exact h
  | cons op rest ih =>
    intro r h
    cases op with
    | fail p =>
      exact ih _ (by simp [add_failure, h])
    | audioFail p =>
      refine ih _ ?_
      unfold add_audio_failure
      by_cases hp : p ∈ r.failed_files
      · simpa [hp] using h
      · simp [hp, h]

/-- C10: starting from a fresh report, after any sequence of
`add_failure` and `add_audio_failure` calls the `failed` counter
equals the length of `failed_files`; and `add_audio_failure` on a path
already listed in `failed_files` bumps only the audio counters,
leaving `failed` and `failed_files` unchanged. -/
theorem C10_report_invariant (ops : List ROp) (r : Report) (p : String) :
    (applyOps emptyReport ops).failed
      = (applyOps emptyReport ops).failed_files.length
    ∧ (p ∈ r.failed_files →
        (add_audio_failure r p).failed = r.failed
        ∧ (add_audio_failure r p).failed_files = r.failed_files
        ∧ (add_audio_failure r p).audio_failures = r.audio_failures + 1
        ∧ (add_audio_failure r p).audio_failed_files
            = r.audio_failed_files ++ [p]) := by
  constructor
  · exact applyOps_failed_length ops emptyReport (by simp [emptyReport])
  · intro hp
    unfold add_audio_failure
    rw [if_pos hp]
    exact ⟨rfl, rfl, rfl, rfl⟩

/-- C10 witness: a failure for `"a"` followed by audio failures for
`"a"` (already listed) and `"b"` (new). -/
theorem C10_report_invariant_witness :
    (applyOps emptyReport
        [ROp.fail ("a"), ROp.audioFail ("a"), ROp.audioFail ("b")]).failed
      = (applyOps emptyReport
        [ROp.fail ("a"), ROp.audioFail ("a"), ROp.audioFail ("b")]).failed_files.length
    ∧ (add_audio_failure (add_failure emptyReport ("a")) "a").failed
        = (add_failure emptyReport ("a")).failed
    ∧ (add_audio_failure (add_failure emptyReport ("a")) "a").failed_files
        = (add_failure emptyReport ("a")).failed_files
    ∧ (add_audio_failure (add_failure emptyReport ("a")) "a").audio_failures
        = (add_failure emptyReport ("a")).audio_failures + 1 := by
  have h := C10_report_invariant
    [ROp.fail ("a"), ROp.audioFail ("a"), ROp.audioFail ("b")]
    (add_failure emptyReport ("a")) "a"
  have h2 := h.2 (by decide)
  exact ⟨h.1, h2.1, h2.2.1, h2.2.2.1⟩

/-! ## C4 -/

theorem pyTruthy_iff (s : String) : pyTruthy s = true ↔ s ≠ "" := by
  simp [pyTruthy]

/-- C4: audio validation is fail-closed.  With the skip-audio setting
off, `hasAudio` is true exactly when the probe succeeds and its
stripped stdout is nonempty (some audio stream index was reported),
and false on probe failure, empty output, or an unlaunchable tool; the
converters-module `has_audio_stream` behaves the same.  With the
skip-audio setting on, the check is bypassed entirely: no probe is
issued and the result is always true. -/
theorem C4_audio_fail_closed (cfg : Config) (st : AppSettings) (p : Path)
    (e : Env) :
    (st.skip_audio = true → hasAudio st p e = (true, e))
    ∧ (∀ r rs, st.skip_audio = false → e.responses = r :: rs →
        ((hasAudio st p e).1 = true ↔ r.1 = true ∧ pyStrip r.2.1 ≠ ""))
    ∧ (st.skip_audio = false → e.responses = [] → (hasAudio st p e).1 = false)
    ∧ (∀ r rs, e.responses = r :: rs →
        ((has_audio_stream cfg p e).1 = true ↔
          r.1 = true ∧ pyStrip r.2.1 ≠ ""))
    ∧ (e.responses = [] → (has_audio_stream cfg p e).1 = false) := by
  refine ⟨?_, ?_, ?_, ?_, ?_⟩
  · intro h
    unfold hasAudio
    rw [if_pos h]
  · intro r rs hsk hr
    unfold hasAudio safe_run
    rw [hsk, hr]
    simp [Bool.and_eq_true, pyTruthy]
  · intro hsk hr
    unfold hasAudio safe_run
    rw [hsk, hr]
    simp
  · intro r rs hr
    unfold has_audio_stream safe_run
    rw [hr]
    by_cases h1 : r.1 = false
    · simp [h1]
    · rw [Bool.not_eq_false] at h1
      simp [h1, pyTruthy]
  · intro hr
    unfold has_audio_stream safe_run
    rw [hr]
    simp

/-- C4 witness: a successful probe reporting stream index 0, and the
bypass with the skip setting on. -/
theorem C4_audio_fail_closed_witness :
    hasAudio { stFix with skip_audio := true } pOut (envQ []) = (true, envQ [])
    ∧ ((hasAudio stFix pOut (envQ [(true, "0\n", "")])).1 = true ↔
        (true, "0\n", "").1 = true ∧ pyStrip ("0\n" : String) ≠ "")
    ∧ (hasAudio stFix pOut (envQ [])).1 = false
    ∧ (has_audio_stream cfgFix pOut (envQ [])).1 = false := by
  have h1 := (C4_audio_fail_closed cfgFix { stFix with skip_audio := true }
    pOut (envQ [])).1 rfl
  have h2 := (C4_audio_fail_closed cfgFix stFix pOut
    (envQ [(true, "0\n", "")])).2.1 (true, "0\n", "") [] rfl rfl
  have h3 := (C4_audio_fail_closed cfgFix stFix pOut (envQ [])).2.2.1 rfl rfl
  have h4 := (C4_audio_fail_closed cfgFix stFix pOut (envQ [])).2.2.2.2 rfl
  exact ⟨h1, h2, h3, h4⟩

/-! ## C7 -/

/-- C7: 4K detection is gated and fail-closed.  Both `is_4k_video` and
the GUI `is4kApp` return false without probing when the
high-quality-4K setting is off; with it on, a probe failure, empty
output, or unparseable height yields false, and the result is true
exactly when the first line of the probed output parses to a height of
at least 2160. -/
theorem C7_is4k_gating (cfg : Config) (st : AppSettings) (p : Path) (e : Env) :
    (cfg.high_quality_4k = false → is_4k_video cfg p e = (false, e))
    ∧ (st.high_4k = false → is4kApp st p e = (false, e))
    ∧ (cfg.high_quality_4k = true → e.responses = [] →
        (is_4k_video cfg p e).1 = false)
    ∧ (∀ r rs, cfg.high_quality_4k = true → e.responses = r :: rs →
        ((is_4k_video cfg p e).1 = true ↔
          r.1 = true ∧ pyStrip r.2.1 ≠ ""
          ∧ ∃ h, pyInt (firstLine (pyStrip r.2.1)) = some h ∧ 2160 ≤ h)) := by
  refine ⟨?_, ?_, ?_, ?_⟩
  · intro h
    unfold is_4k_video
    rw [if_pos h]
  · intro h
    unfold is4kApp
    rw [if_pos h]
  · intro h4 hr
    unfold is_4k_video safe_run
    rw [h4, hr]
    simp
  · intro r rs h4 hr
    unfold is_4k_video safe_run
    rw [h4, hr]
    by_cases h1 : r.1 = false
    · simp [h1]
    · rw [Bool.not_eq_false] at h1
      by_cases h2 : pyStrip r.2.1 = ""
      · simp [h1, h2]
      · cases hpi : pyInt (firstLine (pyStrip r.2.1)) with
        | none => simp [h1, h2, hpi]
        | some height => simp [h1, h2, hpi]

/-- C7 witness: gating with the setting off, and a 2160-line probe
with the setting on. -/
theorem C7_is4k_gating_witness :
    is_4k_video cfgFix pIn (envQ [(true, "2160", "")]) =
      (false, envQ [(true, "2160", "")])
    ∧ is4kApp stFix pIn (envQ [(true, "2160", "")]) =
      (false, envQ [(true, "2160", "")])
    ∧ ((is_4k_video cfg4k pIn (envQ [(true, "2160", "")])).1 = true ↔
        (true, "2160", "").1 = true ∧ pyStrip ("2160" : String) ≠ ""
        ∧ ∃ h, pyInt (firstLine (pyStrip ("2160" : String))) = some h
            ∧ 2160 ≤ h) := by
  have h1 := (C7_is4k_gating cfgFix stFix pIn
    (envQ [(true, "2160", "")])).1 rfl
  have h2 := (C7_is4k_gating cfgFix stFix pIn
    (envQ [(true, "2160", "")])).2.1 rfl
  have h3 := (C7_is4k_gating cfg4k stFix pIn
    (envQ [(true, "2160", "")])).2.2.2 (true, "2160", "") [] rfl rfl
  exact ⟨h1, h2, h3⟩

/-! ## C8 -/

/-- C8: `needs_conversion` is false on unsupported extensions; false
when overwriting is disabled and the resolved output path exists (and
the batch loop then only bumps the skipped counter, leaving the
environment untouched); true in every other case. -/
theorem C8_needs_conversion (cfg : Config) (e : Env) (p : Path)
    (rest : List Path) (r : Report) :
    (¬ (extLower p.ext ∈ cfg.video_extensions) →
      needs_conversion cfg e p = false)
    ∧ (extLower p.ext ∈ cfg.video_extensions →
        cfg.overwrite_existing = false →
        e.fsExists (sanitize_output_name cfg e.resolve p) = true →
        needs_conversion cfg e p = false)
    ∧ (extLower p.ext ∈ cfg.video_extensions →
        (cfg.overwrite_existing = true
          ∨ e.fsExists (sanitize_output_name cfg e.resolve p) = false) →
        needs_conversion cfg e p = true)
    ∧ (needs_conversion cfg e p = false →
        runBatch cfg (p :: rest) e r
          = runBatch cfg rest e { r with skipped := r.skipped + 1 }) := by
  refine ⟨?_, ?_, ?_, ?_⟩
  · intro h
    unfold needs_conversion
    rw [if_pos h]
  · intro hext hov hex
    unfold needs_conversion
    rw [if_neg (by simpa using hext)]
    simp only [hov, hex]
    rfl
  · intro hext hcase
    unfold needs_conversion
    rw [if_neg (by simpa using hext)]
    rcases hcase with hov | hex
    · simp [hov]
    · simp [hex]
  · intro h
    simp only [runBatch, h]
    simp

/-- C8 witness: an unsupported `.txt` extension is skipped by the
batch loop without touching the environment. -/
theorem C8_needs_conversion_witness :
    needs_conversion cfgFix (envQ []) { dir := [], stem := "a", ext := ".txt" }
      = false
    ∧ runBatch cfgFix [{ dir := [], stem := "a", ext := ".txt" }] (envQ [])
        emptyReport
      = runBatch cfgFix [] (envQ [])
          { emptyReport with skipped := emptyReport.skipped + 1 } := by
  have h := C8_needs_conversion cfgFix (envQ [])
    { dir := [], stem := "a", ext := ".txt" } [] emptyReport
  have h1 := h.1 (by decide)
  exact ⟨h1, h.2.2.2 h1⟩

/-! ## C6 -/

/-- C6 counterexample: with the high-quality-4K setting enabled,
`build_encode_command` is not a pure function of its arguments and
configuration — it launches an ffprobe invocation (visible in the
trace) and returns different argument lists for identical arguments
when the probed heights differ. -/
theorem C6_builder_purity_counterexample :
    (build_encode_command cfg4k pIn pOut (envQ [(true, "2160", "")])).1
      ≠ (build_encode_command cfg4k pIn pOut (envQ [(true, "1080", "")])).1
    ∧ (build_encode_command cfg4k pIn pOut (envQ [(true, "2160", "")])).2.trace
      = [Event.run (heightProbeCmd ("ffprobe") pIn)] := by
  exact ⟨by decide, by decide⟩

/-- C6 (amended): `build_copy_command` is a pure assembly of its
arguments, and `build_encode_command` is pure exactly when the
high-quality-4K setting is disabled — it then issues no external
invocation, leaves the environment untouched, and returns the same
argument list for any two environments. -/
theorem C6_builder_purity_amended (cfg : Config) (inp outp : Path)
    (e1 e2 : Env) (h : cfg.high_quality_4k = false) :
    (build_encode_command cfg inp outp e1).1
      = (build_encode_command cfg inp outp e2).1
    ∧ (build_encode_command cfg inp outp e1).2 = e1
    ∧ build_copy_command cfg inp outp
        = cfg.ffmpeg_binary :: "-i" :: pathStr inp
            :: (cfg.copy_mode ++ [pathStr outp]) := by
  unfold build_encode_command is_4k_video
  rw [if_pos h, if_pos h]
  exact ⟨rfl, rfl, rfl⟩

/-- C6 witness: the amended purity at a concrete configuration with
the 4K setting off and two different environments. -/
theorem C6_builder_purity_amended_witness :
    (build_encode_command cfgFix pIn pOut (envQ [(true, "2160", "")])).1
      = (build_encode_command cfgFix pIn pOut (envQ [])).1
    ∧ (build_encode_command cfgFix pIn pOut (envQ [(true, "2160", "")])).2
      = envQ [(true, "2160", "")]
    ∧ build_copy_command cfgFix pIn pOut
        = cfgFix.ffmpeg_binary :: "-i" :: pathStr pIn
            :: (cfgFix.copy_mode ++ [pathStr pOut]) :=
  C6_builder_purity_amended cfgFix pIn pOut (envQ [(true, "2160", "")])
    (envQ []) rfl

/-! ## Environment evolution lemmas

An engine step only removes queued responses, appends run events to
the trace, and leaves the read-only environment fields unchanged. -/

/-- Every event in the list is an external invocation. -/
def RunOnly (l : List Event) : Prop :=
  ∀ ev ∈ l, ∃ cmd, ev = Event.run cmd

/-- Environment evolution: `e2` is `e1` after some external invocations, with the same read-only
fields, and the trace grew by run events only. -/
def EnvStep (e1 e2 : Env) : Prop :=
  e2.resolve = e1.resolve ∧ e2.fsExists = e1.fsExists
  ∧ e2.moveOk = e1.moveOk ∧ e2.unlinkOk = e1.unlinkOk
  ∧ ∃ d, e2.trace = e1.trace ++ d ∧ RunOnly d

theorem EnvStep.refl' (e : Env) : EnvStep e e :=
  ⟨rfl, rfl, rfl, rfl, [], by simp, fun ev h => absurd h (List.not_mem_nil ev)⟩

theorem EnvStep.trans' {e1 e2 e3 : Env}
    (h : EnvStep e1 e2) (h' : EnvStep e2 e3) : EnvStep e1 e3 := by
  obtain ⟨a1, a2, a3, a4, d, hd, hr⟩ := h
  obtain ⟨b1, b2, b3, b4, d', hd', hr'⟩ := h'
  refine ⟨b1.trans a1, b2.trans a2, b3.trans a3, b4.trans a4,
    d ++ d', ?_, ?_⟩
  · rw [hd', hd, List.append_assoc]
  · intro ev hev
    rcases List.mem_append.mp hev with h | h
    · exact hr ev h
    · exact hr' ev h

theorem safe_run_fields (cmd : List String) (e : Env) :
    (safe_run cmd e).2.resolve = e.resolve
    ∧ (safe_run cmd e).2.fsExists = e.fsExists
    ∧ (safe_run cmd e).2.moveOk = e.moveOk
    ∧ (safe_run cmd e).2.unlinkOk = e.unlinkOk
    ∧ (safe_run cmd e).2.trace = e.trace ++ [Event.run cmd] := by
  cases hr : e.responses <;> simp [safe_run, hr]

theorem envStep_safe_run (cmd : List String) (e : Env) :
    EnvStep e (safe_run cmd e).2 := by
  have h := safe_run_fields cmd e
  refine ⟨h.1, h.2.1, h.2.2.1, h.2.2.2.1, [Event.run cmd], h.2.2.2.2, ?_⟩
  intro ev hev
  simp only [List.mem_singleton] at hev
  exact ⟨cmd, hev⟩

theorem envStep_is_4k_video (cfg : Config) (p : Path) (e : Env) :
    EnvStep e (is_4k_video cfg p e).2 := by
  unfold is_4k_video
  by_cases h : cfg.high_quality_4k = false
  · rw [if_pos h]
    exact EnvStep.refl' e
  · rw [if_neg h]
    have hbase := envStep_safe_run (heightProbeCmd cfg.ffprobe_binary p) e
    dsimp only
    split
    · exact hbase
    · split
      · exact hbase
      · exact hbase

theorem envStep_build_encode (cfg : Config) (inp outp : Path) (e : Env) :
    EnvStep e (build_encode_command cfg inp outp e).2 :=
  envStep_is_4k_video cfg inp e

theorem envStep_has_audio_stream (cfg : Config) (p : Path) (e : Env) :
    EnvStep e (has_audio_stream cfg p e).2 := by
  unfold has_audio_stream
  have hbase := envStep_safe_run (audioProbeCmd cfg.ffprobe_binary p) e
  dsimp only
  split
  · exact hbase
  · exact hbase

theorem envStep_cyclePhase (cfg : Config) (inp outp : Path) (e : Env) :
    EnvStep e (cyclePhase cfg inp outp e).2 := by
  unfold cyclePhase
  have h1 := envStep_safe_run (build_copy_command cfg inp outp) e
  dsimp only
  split
  · exact h1
  · refine h1.trans' ((envStep_build_encode cfg inp outp _).trans' ?_)
    exact envStep_safe_run _ _

theorem envStep_cycleStep (cfg : Config) (inp outp : Path) (e : Env) :
    EnvStep e (cycleStep cfg inp outp e).2 := by
  unfold cycleStep
  have h1 := envStep_cyclePhase cfg inp outp e
  dsimp only
  split
  · exact h1.trans' (envStep_has_audio_stream cfg outp _)
  · exact h1

theorem envStep_convertLoop (cfg : Config) (inp outp : Path) :
    ∀ (fuel attempts : Nat) (e : Env),
      EnvStep e (convertLoop cfg inp outp fuel attempts e).2.2 := by
  intro fuel
  induction fuel with
  | zero => intro attempts e; exact EnvStep.refl' e
  | succ n ih =>
    intro attempts e
    unfold convertLoop
    have h1 := envStep_cycleStep cfg inp outp e
    dsimp only
    split
    · exact h1
    · exact h1.trans' (ih (attempts + 1) _)

/-- The `attempts` counter grows by at most the remaining fuel. -/
theorem convertLoop_attempts (cfg : Config) (inp outp : Path) :
    ∀ (fuel attempts : Nat) (e : Env),
      (convertLoop cfg inp outp fuel attempts e).2.1 ≤ attempts + fuel := by
  intro fuel
  induction fuel with
  | zero => intro attempts e; simp [convertLoop]
  | succ n ih =>
    intro attempts e
    unfold convertLoop
    dsimp only
    split
    · dsimp only
      omega
    · have := ih (attempts + 1) (cycleStep cfg inp outp e).2
      omega

/-- The trace of an encode-command build: exactly the 4K probe when
the high-quality setting is on, nothing otherwise. -/
theorem build_encode_trace (cfg : Config) (inp outp : Path) (e : Env) :
    (build_encode_command cfg inp outp e).2.trace
      = e.trace ++ (if cfg.high_quality_4k = true
          then [Event.run (heightProbeCmd cfg.ffprobe_binary inp)]
          else []) := by
  show (is_4k_video cfg inp e).2.trace = _
  unfold is_4k_video
  by_cases h : cfg.high_quality_4k = false
  · simp [h]
  · have h' : cfg.high_quality_4k = true := by
      revert h
      cases cfg.high_quality_4k <;> simp
    have hs := (safe_run_fields (heightProbeCmd cfg.ffprobe_binary inp) e).2.2.2.2
    rw [if_neg h, if_pos h']
    dsimp only
    split
    · exact hs
    · split
      · exact hs
      · exact hs

/-- The trace of a converters-module audio probe. -/
theorem has_audio_stream_trace (cfg : Config) (p : Path) (e : Env) :
    (has_audio_stream cfg p e).2.trace
      = e.trace ++ [Event.run (audioProbeCmd cfg.ffprobe_binary p)] := by
  unfold has_audio_stream
  have hs := (safe_run_fields (audioProbeCmd cfg.ffprobe_binary p) e).2.2.2.2
  dsimp only
  split
  · exact hs
  · exact hs

theorem envStep_cyclePhase_after_copy (cfg : Config) (inp outp : Path)
    (e : Env) :
    EnvStep (safe_run (build_copy_command cfg inp outp) e).2
      (cyclePhase cfg inp outp e).2 := by
  unfold cyclePhase
  dsimp only
  split
  · exact EnvStep.refl' _
  · exact (envStep_build_encode cfg inp outp _).trans' (envStep_safe_run _ _)

theorem envStep_cycleStep_after_phase (cfg : Config) (inp outp : Path)
    (e : Env) :
    EnvStep (cyclePhase cfg inp outp e).2 (cycleStep cfg inp outp e).2 := by
  unfold cycleStep
  dsimp only
  split
  · exact envStep_has_audio_stream cfg outp _
  · exact EnvStep.refl' _

/-! ## C3 -/

/-- C3: the retry loop runs at most `max_retries + 1` attempt cycles
(the final value of the `attempts` counter is bounded), and within
every cycle — on every retry pass, not just the first — the stream
copy command is issued first; the encode command is issued in the same
cycle exactly when the copy result was a failure, and no encode
command is issued in a cycle whose copy succeeded. -/
theorem C3_retry_bound_and_order (cfg : Config) (inp outp : Path) (e : Env) :
    (convertLoop cfg inp outp (cfg.max_retries + 1) 0 e).2.1
      ≤ cfg.max_retries + 1
    ∧ (∃ tl, (cycleStep cfg inp outp e).2.trace
        = e.trace ++ Event.run (build_copy_command cfg inp outp) :: tl)
    ∧ (∀ r rs, e.responses = r :: rs → r.1 = false →
        ∃ tl, (cycleStep cfg inp outp e).2.trace
          = e.trace ++ Event.run (build_copy_command cfg inp outp)
              :: ((if cfg.high_quality_4k = true
                    then [Event.run (heightProbeCmd cfg.ffprobe_binary inp)]
                    else [])
                ++ Event.run (build_encode_command cfg inp outp
                    { e with
                      responses := rs,
                      trace := e.trace
                        ++ [Event.run (build_copy_command cfg inp outp)] }).1
                  :: tl))
    ∧ (∀ r rs, e.responses = r :: rs → r.1 = true →
        (cycleStep cfg inp outp e).2.trace
          = e.trace ++ Event.run (build_copy_command cfg inp outp)
              :: (if cfg.validate_audio = true
                   then [Event.run (audioProbeCmd cfg.ffprobe_binary outp)]
                   else [])) := by
  refine ⟨?_, ?_, ?_, ?_⟩
  · have h := convertLoop_attempts cfg inp outp (cfg.max_retries + 1) 0 e
    simpa using h
  · have h1 := envStep_cyclePhase_after_copy cfg inp outp e
    have h2 := envStep_cycleStep_after_phase cfg inp outp e
    obtain ⟨_, _, _, _, d, hd, _⟩ := h1.trans' h2
    refine ⟨d, ?_⟩
    rw [hd, (safe_run_fields (build_copy_command cfg inp outp) e).2.2.2.2]
    simp
  · intro r rs hr hf
    have hsr : safe_run (build_copy_command cfg inp outp) e
        = (r, { e with
            responses := rs,
            trace := e.trace ++ [Event.run (build_copy_command cfg inp outp)] }) := by
      simp [safe_run, hr]
    have hcp : cyclePhase cfg inp outp e
        = ((safe_run
              (build_encode_command cfg inp outp
                { e with
                  responses := rs,
                  trace := e.trace
                    ++ [Event.run (build_copy_command cfg inp outp)] }).1
              (build_encode_command cfg inp outp
                { e with
                  responses := rs,
                  trace := e.trace
                    ++ [Event.run (build_copy_command cfg inp outp)] }).2).1.1,
           (safe_run
              (build_encode_command cfg inp outp
                { e with
                  responses := rs,
                  trace := e.trace
                    ++ [Event.run (build_copy_command cfg inp outp)] }).1
              (build_encode_command cfg inp outp
                { e with
                  responses := rs,
                  trace := e.trace
                    ++ [Event.run (build_copy_command cfg inp outp)] }).2).2) := by
      unfold cyclePhase
      rw [hsr]
      dsimp only
      rw [hf]
      simp
    obtain ⟨_, _, _, _, d, hd, _⟩ := envStep_cycleStep_after_phase cfg inp outp e
    refine ⟨d, ?_⟩
    rw [hd, hcp]
    rw [(safe_run_fields _ _).2.2.2.2, build_encode_trace]
    simp
  · intro r rs hr ht
    have hsr : safe_run (build_copy_command cfg inp outp) e
        = (r, { e with
            responses := rs,
            trace := e.trace ++ [Event.run (build_copy_command cfg inp outp)] }) := by
      simp [safe_run, hr]
    have hcp : cyclePhase cfg inp outp e
        = (true, { e with
            responses := rs,
            trace := e.trace ++ [Event.run (build_copy_command cfg inp outp)] }) := by
      unfold cyclePhase
      rw [hsr]
      dsimp only
      rw [ht]
      simp
    unfold cycleStep
    rw [hcp]
    dsimp only
    by_cases hv : cfg.validate_audio = true
    · rw [if_pos (by simp [hv]), if_pos hv]
      rw [has_audio_stream_trace]
      simp
    · have hv' : cfg.validate_audio = false := by
        revert hv
        cases cfg.validate_audio <;> simp
      rw [if_neg (by simp [hv']), if_neg hv]

/-- C3 witness: a failing copy response makes the cycle issue the
copy command first and the encode command in the same cycle; the
attempt counter stays within `max_retries + 1`. -/
theorem C3_retry_bound_and_order_witness :
    (convertLoop cfgFix pIn pOut (cfgFix.max_retries + 1) 0
        (envQ [(false, "", "")])).2.1 ≤ cfgFix.max_retries + 1
    ∧ (∃ tl, (cycleStep cfgFix pIn pOut (envQ [(false, "", "")])).2.trace
        = (envQ [(false, "", "")]).trace
            ++ Event.run (build_copy_command cfgFix pIn pOut)
              :: ((if cfgFix.high_quality_4k = true
                    then [Event.run (heightProbeCmd cfgFix.ffprobe_binary pIn)]
                    else [])
                ++ Event.run (build_encode_command cfgFix pIn pOut
                    { envQ [(false, "", "")] with
                      responses := [],
                      trace := (envQ [(false, "", "")]).trace
                        ++ [Event.run (build_copy_command cfgFix pIn pOut)] }).1
                  :: tl)) :=
  ⟨(C3_retry_bound_and_order cfgFix pIn pOut (envQ [(false, "", "")])).1,
   (C3_retry_bound_and_order cfgFix pIn pOut (envQ [(false, "", "")])).2.2.1
     (false, "", "") [] rfl rfl⟩

/-! ## C2 -/

/-- Recognizer for file-removal events. -/
def isUnlink : Event → Bool
  | Event.unlink _ => true
  | _ => false

/-- C2 counterexample: in `convert_file` a failed copy attempt is
followed directly by the encode strategy with no removal of the
partially-written output in between — the whole trace of this run
contains no unlink event at all, although the copy attempt failed
(first queued result) and the encode strategy ran next. -/
theorem C2_stale_output_counterexample :
    (convert_file stFix pIn pOut
        (envQx [(false, "", ""), (true, "", ""), (true, "0", "")])).1
      = (true, "encode")
    ∧ (convert_file stFix pIn pOut
        (envQx [(false, "", ""), (true, "", ""), (true, "0", "")])).2.trace
      = [Event.run (appCopyCmd pIn pOut),
         Event.run (appEncodeCmd false pIn pOut),
         Event.run (audioProbeCmd ("ffprobe") pOut)]
    ∧ ((convert_file stFix pIn pOut
        (envQx [(false, "", ""), (true, "", ""), (true, "0", "")])).2.trace.countP
          isUnlink) = 0 := by
  exact ⟨by decide, by decide, by decide⟩

theorem envStep_hasAudio (st : AppSettings) (p : Path) (e : Env) :
    EnvStep e (hasAudio st p e).2 := by
  unfold hasAudio
  dsimp only
  split
  · exact EnvStep.refl' e
  · exact envStep_safe_run _ _

theorem envStep_is4kApp (st : AppSettings) (p : Path) (e : Env) :
    EnvStep e (is4kApp st p e).2 := by
  unfold is4kApp
  by_cases h : st.high_4k = false
  · rw [if_pos h]
    exact EnvStep.refl' e
  · rw [if_neg h]
    have hbase := envStep_safe_run (heightProbeCmd ("ffprobe") p) e
    dsimp only
    split
    · exact hbase
    · split
      · exact hbase
      · exact hbase

/-- Complete description of where `convert_file` can place an unlink
event: on its two success exits the trace grows by run events only; on
the failure exit the trace grows by run events followed by exactly one
final unlink of the output when the output exists, and by run events
only when it does not. -/
theorem convert_file_shape (st : AppSettings) (inp outp : Path) (e : Env) :
    ∃ d, RunOnly d
      ∧ (((convert_file st inp outp e).1.1 = true
            ∧ (convert_file st inp outp e).2.trace = e.trace ++ d)
        ∨ ((convert_file st inp outp e).1 = (false, "failed")
            ∧ ((e.fsExists outp = true
                  ∧ (convert_file st inp outp e).2.trace
                      = e.trace ++ (d ++ [Event.unlink outp]))
              ∨ (e.fsExists outp = false
                  ∧ (convert_file st inp outp e).2.trace = e.trace ++ d)))) := by
  unfold convert_file
  dsimp only
  set c1 := safe_run (appCopyCmd inp outp) e with hc1def
  set a1 := (if c1.1.1 = true then hasAudio st outp c1.2 else (false, c1.2))
    with ha1def
  set k := is4kApp st inp a1.2 with hkdef
  set c2 := safe_run (appEncodeCmd k.1 inp outp) k.2 with hc2def
  set a2 := (if c2.1.1 = true then hasAudio st outp c2.2 else (false, c2.2))
    with ha2def
  have h1 : EnvStep e c1.2 := by
    rw [hc1def]
    exact envStep_safe_run _ _
  have h2 : EnvStep e a1.2 := by
    rw [ha1def]
    split
    · exact h1.trans' (envStep_hasAudio st outp c1.2)
    · exact h1
  have h3 : EnvStep e k.2 := by
    rw [hkdef]
    exact h2.trans' (envStep_is4kApp st inp a1.2)
  have h4 : EnvStep e c2.2 := by
    rw [hc2def]
    exact h3.trans' (envStep_safe_run _ _)
  have h5 : EnvStep e a2.2 := by
    rw [ha2def]
    split
    · exact h4.trans' (envStep_hasAudio st outp c2.2)
    · exact h4
  split
  · obtain ⟨_, _, _, _, d, hd, hro⟩ := h2
    exact ⟨d, hro, Or.inl ⟨rfl, hd⟩⟩
  · split
    · obtain ⟨_, _, _, _, d, hd, hro⟩ := h5
      exact ⟨d, hro, Or.inl ⟨rfl, hd⟩⟩
    · obtain ⟨_, hfs, _, _, d, hd, hro⟩ := h5
      split
      · rename_i hex2
        have hex : e.fsExists outp = true := by
          rw [← hfs]
          exact hex2
        refine ⟨d, hro, Or.inr ⟨rfl, Or.inl ⟨hex, ?_⟩⟩⟩
        show a2.2.trace ++ [Event.unlink outp] = e.trace ++ (d ++ [Event.unlink outp])
        rw [hd, List.append_assoc]
      · rename_i hex2
        have hex2f : a2.2.fsExists outp = false := by
          revert hex2
          cases a2.2.fsExists outp <;> simp
        have hex : e.fsExists outp = false := by
          rw [← hfs]
          exact hex2f
        exact ⟨d, hro, Or.inr ⟨rfl, Or.inr ⟨hex, hd⟩⟩⟩

/-- Complete description of where `convert_video` can place an unlink
event: the trace grows by the output-directory mkdir and run events,
then on exhaustion by the failed-directory mkdir and the move of the
source (or nothing when the move fails), and on success by the
delete-original unlink of the source (or nothing) — never by an unlink
of the output file. -/
theorem convert_video_shape (cfg : Config) (inp : Path) (e : Env) :
    ∃ d, RunOnly d
      ∧ (((convert_video cfg inp e).1 = false
           ∧ ((convert_video cfg inp e).2.trace
                = e.trace
                  ++ (Event.mkdir (sanitize_output_name cfg e.resolve inp).dir
                    :: (d ++ [Event.mkdir cfg.failed_dir,
                              Event.move inp
                                { dir := cfg.failed_dir,
                                  stem := inp.stem,
                                  ext := inp.ext }]))
              ∨ (convert_video cfg inp e).2.trace
                = e.trace
                  ++ (Event.mkdir (sanitize_output_name cfg e.resolve inp).dir
                    :: d)))
        ∨ ((convert_video cfg inp e).1 = true
           ∧ ((cfg.delete_original_after_convert = true
                ∧ (convert_video cfg inp e).2.trace
                  = e.trace
                    ++ (Event.mkdir (sanitize_output_name cfg e.resolve inp).dir
                      :: (d ++ [Event.unlink inp])))
              ∨ (convert_video cfg inp e).2.trace
                = e.trace
                  ++ (Event.mkdir (sanitize_output_name cfg e.resolve inp).dir
                    :: d)))) := by
  obtain ⟨_, _, _, _, d, hd, hro⟩ :=
    envStep_convertLoop cfg inp (sanitize_output_name cfg e.resolve inp)
      (cfg.max_retries + 1) 0
      { e with trace := e.trace
          ++ [Event.mkdir (sanitize_output_name cfg e.resolve inp).dir] }
  have hd' : (convertLoop cfg inp (sanitize_output_name cfg e.resolve inp)
      (cfg.max_retries + 1) 0
      { e with trace := e.trace
          ++ [Event.mkdir (sanitize_output_name cfg e.resolve inp).dir] }).2.2.trace
      = e.trace
        ++ (Event.mkdir (sanitize_output_name cfg e.resolve inp).dir :: d) := by
    rw [hd]
    simp
  refine ⟨d, hro, ?_⟩
  unfold convert_video
  dsimp only
  by_cases hs : (convertLoop cfg inp (sanitize_output_name cfg e.resolve inp)
      (cfg.max_retries + 1) 0
      { e with trace := e.trace
          ++ [Event.mkdir (sanitize_output_name cfg e.resolve inp).dir] }).1
      = false
  · simp only [hs, eq_self_iff_true, if_true]
    refine Or.inl ?_
    split
    · refine ⟨rfl, Or.inl ?_⟩
      simp [hd']
    · exact ⟨rfl, Or.inr hd'⟩
  · have hs' : (convertLoop cfg inp (sanitize_output_name cfg e.resolve inp)
        (cfg.max_retries + 1) 0
        { e with trace := e.trace
            ++ [Event.mkdir (sanitize_output_name cfg e.resolve inp).dir] }).1
        = true := by
      revert hs
      cases (convertLoop cfg inp (sanitize_output_name cfg e.resolve inp)
        (cfg.max_retries + 1) 0
        { e with trace := e.trace
            ++ [Event.mkdir (sanitize_output_name cfg e.resolve inp).dir] }).1 <;>
        simp
    simp only [hs', Bool.true_eq_false, if_false]
    refine Or.inr ?_
    split
    · rename_i hdel
      split
      · refine ⟨rfl, Or.inl ⟨hdel, ?_⟩⟩
        simp [hd']
      · exact ⟨rfl, Or.inr hd'⟩
    · exact ⟨rfl, Or.inr hd'⟩

/-- C2 (amended): a stale partially-written output is removed only at
the very end of `convert_file`, after both the copy and the encode
strategies have failed, and only when the file exists — every unlink
the call emits is that single final one, so in particular no removal
happens between the failed copy attempt and the encode fallback; and
`convert_video` never removes the output file at all: the only unlink
it can emit is the delete-original of the source after success. -/
theorem C2_stale_output_amended (st : AppSettings) (cfg : Config)
    (inp outp : Path) (e : Env) :
    (∀ q, Event.unlink q
        ∈ (convert_file st inp outp e).2.trace.drop e.trace.length →
      q = outp ∧ (convert_file st inp outp e).1 = (false, "failed")
        ∧ e.fsExists outp = true)
    ∧ ((convert_file st inp outp e).1 = (false, "failed") →
        e.fsExists outp = true →
        ∃ d, RunOnly d
          ∧ (convert_file st inp outp e).2.trace
              = e.trace ++ (d ++ [Event.unlink outp]))
    ∧ (∀ q, Event.unlink q
          ∈ (convert_video cfg inp e).2.trace.drop e.trace.length →
        q = inp ∧ cfg.delete_original_after_convert = true
          ∧ (convert_video cfg inp e).1 = true) := by
  obtain ⟨d, hro, hcase⟩ := convert_file_shape st inp outp e
  refine ⟨?_, ?_, ?_⟩
  · intro q hq
    rcases hcase with ⟨_, htr⟩ | ⟨hfail, ⟨hex, htr⟩ | ⟨hex, htr⟩⟩
    · rw [htr, List.drop_left] at hq
      obtain ⟨cmd, hc⟩ := hro _ hq
      exact Event.noConfusion hc
    · rw [htr, List.drop_left] at hq
      rcases List.mem_append.mp hq with h | h
      · obtain ⟨cmd, hc⟩ := hro _ h
        exact Event.noConfusion hc
      · have hqe := List.mem_singleton.mp h
        injection hqe with hqe'
        exact ⟨hqe', hfail, hex⟩
    · rw [htr, List.drop_left] at hq
      obtain ⟨cmd, hc⟩ := hro _ hq
      exact Event.noConfusion hc
  · intro hfail hex
    rcases hcase with ⟨hsucc, _⟩ | ⟨_, ⟨_, htr⟩ | ⟨hex', _⟩⟩
    · rw [hfail] at hsucc
      exact absurd hsucc (by simp)
    · exact ⟨d, hro, htr⟩
    · rw [hex] at hex'
      exact absurd hex' (by simp)
  · intro q hq
    obtain ⟨d2, hro2, hcase2⟩ := convert_video_shape cfg inp e
    rcases hcase2 with ⟨_, htr | htr⟩ | ⟨htrue, ⟨hdel, htr⟩ | htr⟩
    · rw [htr, List.drop_left] at hq
      rcases List.mem_cons.mp hq with h | h
      · exact Event.noConfusion h
      · rcases List.mem_append.mp h with h2 | h2
        · obtain ⟨cmd, hc⟩ := hro2 _ h2
          exact Event.noConfusion hc
        · rcases List.mem_cons.mp h2 with h3 | h3
          · exact Event.noConfusion h3
          · have h4 := List.mem_singleton.mp h3
            exact Event.noConfusion h4
    · rw [htr, List.drop_left] at hq
      rcases List.mem_cons.mp hq with h | h
      · exact Event.noConfusion h
      · obtain ⟨cmd, hc⟩ := hro2 _ h
        exact Event.noConfusion hc
    · rw [htr, List.drop_left] at hq
      rcases List.mem_cons.mp hq with h | h
      · exact Event.noConfusion h
      · rcases List.mem_append.mp h with h2 | h2
        · obtain ⟨cmd, hc⟩ := hro2 _ h2
          exact Event.noConfusion hc
        · have h3 := List.mem_singleton.mp h2
          injection h3 with h4
          exact ⟨h4, hdel, htrue⟩
    · rw [htr, List.drop_left] at hq
      rcases List.mem_cons.mp hq with h | h
      · exact Event.noConfusion h
      · obtain ⟨cmd, hc⟩ := hro2 _ h
        exact Event.noConfusion hc

/-- Configuration with delete-original enabled, for the
source-unlink-on-success case. -/
def cfgDel : Config :=
  { cfgFix with delete_original_after_convert := true }

/-- C2 witness: both strategies fail on an existing output and the
single unlink of the output happens at the very end; that unlink
implies failure-with-existing-output; and the one unlink
`convert_video` can emit is the delete-original of the source after a
successful conversion. -/
theorem C2_stale_output_amended_witness :
    (∃ d, RunOnly d
      ∧ (convert_file stFix pIn pOut
            (envQx [(false, "", ""), (false, "", "")])).2.trace
          = (envQx [(false, "", ""), (false, "", "")]).trace
              ++ (d ++ [Event.unlink pOut]))
    ∧ (pOut = pOut
        ∧ (convert_file stFix pIn pOut
              (envQx [(false, "", ""), (false, "", "")])).1 = (false, "failed")
        ∧ (envQx [(false, "", ""), (false, "", "")]).fsExists pOut = true)
    ∧ (pIn = pIn ∧ cfgDel.delete_original_after_convert = true
        ∧ (convert_video cfgDel pIn
              (envQ [(true, "", ""), (true, "x", "")])).1 = true) := by
  refine ⟨?_, ?_, ?_⟩
  · exact (C2_stale_output_amended stFix cfgDel pIn pOut
      (envQx [(false, "", ""), (false, "", "")])).2.1 (by decide) rfl
  · exact (C2_stale_output_amended stFix cfgDel pIn pOut
      (envQx [(false, "", ""), (false, "", "")])).1 pOut (by decide)
  · exact (C2_stale_output_amended stFix cfgDel pIn pOut
      (envQ [(true, "", ""), (true, "x", "")])).2.2 pIn (by decide)

/-! ## C9 -/

/-- C9: when every attempt cycle fails, `convert_video` reports
failure; with a working filesystem the source file is moved into the
failed-items directory (created first), while a failing move leaves
the source in place (no move event is recorded) and the failure status
still stands; the batch loop records the failure and continues with
the remaining files. -/
theorem C9_retry_exhaustion (cfg : Config) (inp : Path) (e : Env)
    (rest : List Path) (r : Report)
    (hfail : (convertLoop cfg inp (sanitize_output_name cfg e.resolve inp)
        (cfg.max_retries + 1) 0
        { e with trace := e.trace
            ++ [Event.mkdir (sanitize_output_name cfg e.resolve inp).dir] }).1
      = false) :
    (convert_video cfg inp e).1 = false
    ∧ (e.moveOk = true → ∃ t, (convert_video cfg inp e).2.trace
        = t ++ [Event.mkdir cfg.failed_dir,
                Event.move inp { dir := cfg.failed_dir, stem := inp.stem,
                                 ext := inp.ext }])
    ∧ (e.moveOk = false → ∀ src dst,
        Event.move src dst
          ∉ (convert_video cfg inp e).2.trace.drop e.trace.length)
    ∧ (needs_conversion cfg e inp = true →
        runBatch cfg (inp :: rest) e r
          = runBatch cfg rest (convert_video cfg inp e).2
              (add_failure r (pathStr inp))) := by
  obtain ⟨hres, hfs, hmv, hul, d, hd, hro⟩ :=
    envStep_convertLoop cfg inp (sanitize_output_name cfg e.resolve inp)
      (cfg.max_retries + 1) 0
      { e with trace := e.trace
          ++ [Event.mkdir (sanitize_output_name cfg e.resolve inp).dir] }
  have h1 : (convert_video cfg inp e).1 = false := by
    unfold convert_video
    dsimp only
    simp only [hfail, eq_self_iff_true, if_true]
    split
    · rfl
    · rfl
  refine ⟨h1, ?_, ?_, ?_⟩
  · intro hm
    have hmv' : (convertLoop cfg inp (sanitize_output_name cfg e.resolve inp)
        (cfg.max_retries + 1) 0
        { e with trace := e.trace
            ++ [Event.mkdir (sanitize_output_name cfg e.resolve inp).dir] }).2.2.moveOk
        = true := by
      rw [hmv]
      exact hm
    refine ⟨(convertLoop cfg inp (sanitize_output_name cfg e.resolve inp)
        (cfg.max_retries + 1) 0
        { e with trace := e.trace
            ++ [Event.mkdir (sanitize_output_name cfg e.resolve inp).dir] }).2.2.trace,
      ?_⟩
    unfold convert_video
    dsimp only
    simp only [hfail, hmv', eq_self_iff_true, if_true]
  · intro hm src dst hmem
    have hmv' : (convertLoop cfg inp (sanitize_output_name cfg e.resolve inp)
        (cfg.max_retries + 1) 0
        { e with trace := e.trace
            ++ [Event.mkdir (sanitize_output_name cfg e.resolve inp).dir] }).2.2.moveOk
        = false := by
      rw [hmv]
      exact hm
    rw [show (convert_video cfg inp e).2
        = (convertLoop cfg inp (sanitize_output_name cfg e.resolve inp)
            (cfg.max_retries + 1) 0
            { e with trace := e.trace
                ++ [Event.mkdir (sanitize_output_name cfg e.resolve inp).dir] }).2.2
        from by
      unfold convert_video
      dsimp only
      simp only [hfail, hmv', eq_self_iff_true, if_true, Bool.false_eq_true,
        if_false]] at hmem
    rw [hd] at hmem
    have hshape :
        ({ e with trace := e.trace
            ++ [Event.mkdir (sanitize_output_name cfg e.resolve inp).dir] }
          : Env).trace ++ d
        = e.trace ++ (Event.mkdir (sanitize_output_name cfg e.resolve inp).dir
            :: d) := by
      simp
    rw [hshape, List.drop_left] at hmem
    rcases List.mem_cons.mp hmem with hc | hc
    · exact Event.noConfusion hc
    · obtain ⟨cmd, hcmd⟩ := hro _ hc
      exact Event.noConfusion hcmd
  · intro hneed
    simp only [runBatch, hneed, h1, eq_self_iff_true, if_true,
      Bool.false_eq_true, if_false]

/-- C9 witness: with an empty response queue every invocation fails,
the loop exhausts its attempts, the source is moved to the failed
directory, and the batch records the failure and moves on. -/
theorem C9_retry_exhaustion_witness :
    (convert_video cfg4k pSame (envQ [])).1 = false
    ∧ (∃ t, (convert_video cfg4k pSame (envQ [])).2.trace
        = t ++ [Event.mkdir cfg4k.failed_dir,
                Event.move pSame { dir := cfg4k.failed_dir, stem := pSame.stem,
                                   ext := pSame.ext }])
    ∧ (runBatch cfg4k [pSame] (envQ []) emptyReport
        = runBatch cfg4k [] (convert_video cfg4k pSame (envQ [])).2
            (add_failure emptyReport (pathStr pSame))) := by
  have h := C9_retry_exhaustion cfg4k pSame (envQ []) [] emptyReport (by decide)
  exact ⟨h.1, h.2.1 rfl, h.2.2.2 (by decide)⟩

end MediaConv
